import Mathlib

/-!
Shallow embedding of the node-redlock quorum locking library (Deno revision,
`src/deps.ts` holding the `Redlock` class, together with `scripts.ts`,
`errors.ts`, `types.ts` and `lock.ts`).

Numbers: JavaScript numbers that may be fractional (durations, monotonic
timestamps from `performance.now()`, drift factors, thresholds) are modelled
as `ℚ`; script replies and `retryCount` are modelled as `ℤ`.  `Math.round`
of JavaScript is `⌊x + 1/2⌋`, which is exactly Mathlib's `round` on `ℚ`.
Promises are modelled by explicit outcome parameters: a function that awaits
`_execute` takes the outcome of that call as an argument, and the calls a
method makes to `_execute` / `evalsha` / `eval` are returned in an explicit
call log so that claims about "which stores were contacted, with which
arguments" are statable.
-/

namespace Redlock

/-- Decidable equality for `Except`, used for the reply / outcome fields of
the embedding. -/
instance {ε α : Type} [DecidableEq ε] [DecidableEq α] :
    DecidableEq (Except ε α) := fun x y =>
  match x, y with
  | .ok a, .ok b =>
      if h : a = b then .isTrue (by rw [h])
      else .isFalse (by intro he; injection he; exact h (by assumption))
  | .ok _, .error _ => .isFalse (by intro he; injection he)
  | .error _, .ok _ => .isFalse (by intro he; injection he)
  | .error a, .error b =>
      if h : a = b then .isTrue (by rw [h])
      else .isFalse (by intro he; injection he; exact h (by assumption))

/-- JavaScript's `String.prototype.startsWith`, expressed on the character
lists of the strings so that it evaluates by kernel reduction. -/
def jsStartsWith (s p : String) : Bool :=
  p.data.isPrefixOf s.data

/-- Errors thrown by the library, mirroring `errors.ts` plus the plain
`Error` class of JavaScript: `error` is a plain `Error(message)`,
`resourceLockedError` mirrors `ResourceLockedError`, and `executionError`
mirrors `ExecutionError(message, attempts)`.  The `attempts` array of
promises of per-attempt stats is abstracted to the list of the attempts'
decided votes (`true` = "for"), which preserves its length. -/
inductive RError where
  | error (message : String)
  | resourceLockedError (message : String)
  | executionError (message : String) (attempts : List Bool)
deriving DecidableEq, Repr

/-- Values thrown by JavaScript code: either an `Error` instance (so that
`error instanceof Error` holds) or some other value, kept as the string
rendering `${error}` uses together with its `typeof`. -/
inductive JsThrown where
  | err (e : RError)
  | nonError (typeName : String) (valueStr : String)
deriving DecidableEq, Repr

/-- Test for `error instanceof Error` on a thrown JavaScript value. -/
def JsThrown.isErrorInstance : JsThrown → Bool
  | .err _ => true
  | .nonError _ _ => false

/-- `error.message` of a thrown value; only meaningful for `Error`
instances, which is the only place the code reads it. -/
def JsThrown.msg : JsThrown → String
  | .err (.error m) => m
  | .err (.resourceLockedError m) => m
  | .err (.executionError m _) => m
  | .nonError _ _ => ""

/-- Replies a Redis client can hand back from `evalsha` / `eval`, tagged
with enough structure to compute JavaScript's `typeof` on them. -/
inductive RedisReply where
  | num (n : ℤ)
  | str (s : String)
  | nil
  | arr
deriving DecidableEq, Repr

/-- JavaScript `typeof` of a reply value (`nil` surfaces as `undefined` in
the Deno client, arrays as objects). -/
def jsTypeof : RedisReply → String
  | .num _ => "number"
  | .str _ => "string"
  | .nil => "undefined"
  | .arr => "object"

/-- Behaviour of one store (client) for one script invocation: what its
`evalsha` call does, and what its `eval` call does if made. -/
structure ClientBehavior where
  evalshaResult : Except JsThrown RedisReply
  evalResult : Except JsThrown RedisReply
deriving DecidableEq, Repr

/-- Script text plus its SHA-1 hash, mirroring the
`{ value: string; hash: string }` entries of `Redlock.scripts`. -/
structure ScriptPair where
  value : String
  hash : String
deriving DecidableEq, Repr

/-- Argument values passed to a Redis script (`RedisValue`): strings or
numbers. -/
inductive RVal where
  | str (s : String)
  | num (q : ℚ)
deriving DecidableEq, Repr

/-- Record of one network call made by `_attemptOperationOnClient`. -/
inductive CallRecord where
  | evalshaCall (hash : String) (keys : List String) (args : List RVal)
  | evalCall (scriptText : String) (keys : List String) (args : List RVal)
deriving DecidableEq, Repr

/-- The `evalsha` leg of `_attemptOperationOnClient`: await the reply and
throw `Unexpected result of type ... returned from redis.` when it is not a
number (`deps.ts` lines 406-414). -/
def shaStep (b : ClientBehavior) : Except JsThrown ℤ :=
  match b.evalshaResult with
  | .error e => .error e
  | .ok (.num n) => .ok n
  | .ok r =>
      .error (.err (.error
        ("Unexpected result of type " ++ jsTypeof r ++ " returned from redis.")))

/-- The `eval` fallback leg of `_attemptOperationOnClient` (`deps.ts` lines
424-432), with the same reply-type check. -/
def evalStep (b : ClientBehavior) : Except JsThrown ℤ :=
  match b.evalResult with
  | .error e => .error e
  | .ok (.num n) => .ok n
  | .ok r =>
      .error (.err (.error
        ("Unexpected result of type " ++ jsTypeof r ++ " returned from redis.")))

/-- The inner try/catch of `_attemptOperationOnClient` (`deps.ts` lines
404-433): run `evalsha`; on a thrown `Error` whose message starts with
`-NOSCRIPT`, retry once with the raw script text via `eval`; rethrow
anything else.  Returns the result together with the log of network calls
made. -/
def innerTry (script : ScriptPair) (keys : List String) (args : List RVal)
    (b : ClientBehavior) : Except JsThrown ℤ × List CallRecord :=
  match shaStep b with
  | .ok n => (.ok n, [.evalshaCall script.hash keys args])
  | .error e =>
      if e.isErrorInstance && jsStartsWith e.msg "-NOSCRIPT" then
        (evalStep b, [.evalshaCall script.hash keys args,
                      .evalCall script.value keys args])
      else
        (.error e, [.evalshaCall script.hash keys args])

/-- A single store's vote, mirroring `ClientExecutionResult` of `types.ts`;
clients are identified by natural numbers. -/
inductive ClientExecutionResult where
  | forVote (client : ℕ) (value : ℤ)
  | againstVote (client : ℕ) (error : RError)
deriving DecidableEq, Repr

/-- Client a result belongs to. -/
def clientOf : ClientExecutionResult → ℕ
  | .forVote c _ => c
  | .againstVote c _ => c

/-- Full body of `_attemptOperationOnClient` (`deps.ts` lines 397-461).
The returned value is `.ok (vote, emitted)` when the per-store promise
fulfills, where `emitted` is the list of errors emitted on the coordinator's
`"error"` channel by this invocation; it is `.error _` when the promise
rejects (only for thrown non-`Error` values). -/
def attemptOperationOnClient (client : ℕ) (script : ScriptPair)
    (keys : List String) (args : List RVal) (b : ClientBehavior) :
    Except RError (ClientExecutionResult × List RError) :=
  let body : Except JsThrown ClientExecutionResult :=
    match (innerTry script keys args b).1 with
    | .error e => .error e
    | .ok result =>
        if result ≠ (keys.length : ℤ) then
          .error (.err (.resourceLockedError
            ("The operation was applied to: " ++ toString result ++
             " of the " ++ toString keys.length ++ " requested resources.")))
        else
          .ok (.forVote client result)
  match body with
  | .ok r => .ok (r, [])
  | .error (.err e) => .ok (.againstVote client e, [e])
  | .error (.nonError t v) =>
      .error (.error ("Unexpected type " ++ t ++ " thrown with value: " ++ v))

/-- Settings of a coordinator, mirroring `Settings` of `types.ts`.
`retryCount` is modelled as an integer (the library's contract treats it as
an integer count, with `-1` meaning unlimited). -/
structure Settings where
  driftFactor : ℚ
  retryCount : ℤ
  retryDelay : ℚ
  retryJitter : ℚ
  automaticExtensionThreshold : ℚ
deriving DecidableEq, Repr

/-- Default settings of `deps.ts` lines 18-24. -/
def defaultSettings : Settings :=
  { driftFactor := 1 / 100
    retryCount := 10
    retryDelay := 200
    retryJitter := 100
    automaticExtensionThreshold := 500 }

/-- Lock handle, mirroring `lock.ts` (the back-reference to the coordinator
is omitted; `attempts` is abstracted the same way as in `RError`). -/
structure Lock where
  resources : List String
  value : String
  attempts : List Bool
  expiration : ℚ
deriving DecidableEq, Repr

/-- Which of the three registered scripts an `_execute` call uses. -/
inductive ScriptKind where
  | acquireScript
  | extendScript
  | releaseScript
deriving DecidableEq, Repr

/-- Record of one `_execute` call issued by a lifecycle method: the script,
the keys, the args, and the `retryCount` of the per-call settings override
when the call supplies one. -/
structure ExecuteCall where
  script : ScriptKind
  keys : List String
  args : List RVal
  retryCountOverride : Option ℤ
deriving DecidableEq, Repr

/-- Body of `Redlock.acquire` (`deps.ts` lines 155-199).  `start` is the
`performance.now()` reading, `value` the generated random string,
`executeOutcome` the outcome of the `_execute` call on the acquire script
(`.ok attempts` when a quorum was reached), and `releaseOutcome` the
outcome of the best-effort cleanup release that runs when `_execute`
throws (its value is swallowed by the `.catch`).  Returns the result
together with the log of `_execute` calls issued. -/
def acquire (start : ℚ) (value : String) (resources : List String)
    (duration : ℚ) (driftFactorOverride : Option ℚ) (configDriftFactor : ℚ)
    (callerRetryCount : Option ℤ)
    (executeOutcome : Except RError (List Bool))
    (releaseOutcome : Except RError (List Bool)) :
    Except RError Lock × List ExecuteCall :=
  if (⌊duration⌋ : ℚ) ≠ duration then
    (.error (.error "Duration must be an integer value in milliseconds."), [])
  else
    let mainCall : ExecuteCall :=
      ⟨.acquireScript, resources, [.str value, .num duration], callerRetryCount⟩
    match executeOutcome with
    | .ok attempts =>
        let drift : ℤ :=
          round ((driftFactorOverride.getD configDriftFactor) * duration) + 2
        (.ok ⟨resources, value, attempts, start + duration - drift⟩, [mainCall])
    | .error e =>
        let _ := releaseOutcome
        (.error e,
         [mainCall, ⟨.releaseScript, resources, [.str value], some 0⟩])

/-- Body of `Redlock.release` (`deps.ts` lines 207-221): the handle's
`expiration` is set to `0` before `_execute` runs, and the `_execute`
result is returned as is.  The first component is the mutated handle. -/
def release (lock : Lock) (callerRetryCount : Option ℤ)
    (executeOutcome : Except RError (List Bool)) :
    Lock × Except RError (List Bool) × List ExecuteCall :=
  ({ lock with expiration := 0 },
   executeOutcome,
   [⟨.releaseScript, lock.resources, [.str lock.value], callerRetryCount⟩])

/-- Body of `Redlock.extend` (`deps.ts` lines 226-266).  `start` is the
first `performance.now()` reading and `now2` the second one (used for the
expiry check).  The first component is the final state of the `existing`
handle: it is zeroed only after a successful `_execute`. -/
def extend (existing : Lock) (duration : ℚ) (start now2 : ℚ)
    (driftFactorOverride : Option ℚ) (configDriftFactor : ℚ)
    (callerRetryCount : Option ℤ)
    (executeOutcome : Except RError (List Bool)) :
    Lock × Except RError Lock × List ExecuteCall :=
  if (⌊duration⌋ : ℚ) ≠ duration then
    (existing,
     .error (.error "Duration must be an integer value in milliseconds."), [])
  else if existing.expiration < now2 then
    (existing,
     .error (.executionError "Cannot extend an already-expired lock." []), [])
  else
    let call : ExecuteCall :=
      ⟨.extendScript, existing.resources,
       [.str existing.value, .num duration], callerRetryCount⟩
    match executeOutcome with
    | .error e => (existing, .error e, [call])
    | .ok attempts =>
        let drift : ℤ :=
          round ((driftFactorOverride.getD configDriftFactor) * duration) + 2
        ({ existing with expiration := 0 },
         .ok ⟨existing.resources, existing.value, attempts,
              start + duration - drift⟩,
         [call])

/-- Entry checks of `Redlock.using` (`deps.ts` lines 483-513), up to (but
not including) the `acquire` call: the integer-duration check, the routine
shape check, and the `automaticExtensionThreshold` headroom check, in source
order.  The boolean component records whether control reaches the
`acquire` call. -/
def usingEntry (duration : ℚ) (thresholdOverride : Option ℚ)
    (configThreshold : ℚ) (routineIsFunction : Bool) :
    Except RError Unit × Bool :=
  if (⌊duration⌋ : ℚ) ≠ duration then
    (.error (.error "Duration must be an integer value in milliseconds."),
     false)
  else if ¬routineIsFunction then
    (.error (.error "INVARIANT: routine is not a function."), false)
  else if thresholdOverride.getD configThreshold > duration - 100 then
    (.error (.error
      "A lock `duration` must be at least 100ms greater than the `automaticExtensionThreshold` setting."),
     false)
  else
    (.ok (), true)

/-- Outcome of the `_execute` retry loop: fulfilled with the attempt list on
a "for" quorum, or rejected (an `ExecutionError` carrying the attempt list)
when the budget is exhausted.  Attempt lists keep each attempt's decided
vote. -/
inductive ExecOutcome where
  | success (attempts : List Bool)
  | failure (attempts : List Bool)
deriving DecidableEq, Repr

/-- Loop body of `Redlock._execute` (`deps.ts` lines 290-322).  `votes k`
is the decided vote of attempt `k` (`true` = "for"), `retryCount` the
effective setting (`-1` meaning `maxAttempts = Infinity`), `k` the index of
the next attempt, `acc` the attempt list built so far, and the final
argument a step budget distinguishing termination (`some _`) from running
forever (`none` for every budget).  The guard mirrors
`attempts.length < maxAttempts`. -/
def executeAux (votes : ℕ → Bool) (retryCount : ℤ) (k : ℕ)
    (acc : List Bool) : ℕ → Option ExecOutcome
  | 0 => none
  | fuel + 1 =>
      let acc' := acc ++ [votes k]
      if votes k then some (.success acc')
      else if retryCount = -1 ∨ ((acc'.length : ℤ) < retryCount + 1) then
        executeAux votes retryCount (k + 1) acc' fuel
      else some (.failure acc')

/-- The `_execute` retry loop started from an empty attempt list. -/
def executeRun (votes : ℕ → Bool) (retryCount : ℤ) (fuel : ℕ) :
    Option ExecOutcome :=
  executeAux votes retryCount 0 [] fuel

/-- Per-attempt stats record, mirroring `ExecutionStats` of `types.ts`.
`votesAgainst` keeps the key set of the `Map<Client, Error>` (the error a
client voted with travels in its `ClientExecutionResult`). -/
structure ExecutionStats where
  membershipSize : ℕ
  quorumSize : ℕ
  votesFor : Finset ℕ
  votesAgainst : Finset ℕ
deriving DecidableEq

/-- Initial stats record of `_attemptOperation` (`deps.ts` lines 342-347)
for `n` clients: `quorumSize` is `Math.floor(n / 2) + 1`. -/
def initStats (n : ℕ) : ExecutionStats :=
  { membershipSize := n
    quorumSize := n / 2 + 1
    votesFor := ∅
    votesAgainst := ∅ }

/-- Vote-tallying step of `onResultResolve` (`deps.ts` lines 355-363). -/
def tallyStep (s : ExecutionStats) (r : ClientExecutionResult) :
    ExecutionStats :=
  match r with
  | .forVote c _ => { s with votesFor := insert c s.votesFor }
  | .againstVote c _ => { s with votesAgainst := insert c s.votesAgainst }

/-- Stats record after the first `k` replies of the arrival-ordered reply
list `rs` have been tallied. -/
def statsAfter (rs : List ClientExecutionResult) (k : ℕ) : ExecutionStats :=
  (rs.take k).foldl tallyStep (initStats rs.length)

/-- Resolution scan of `_attemptOperation` (`deps.ts` lines 364-377): walk
the replies in arrival order, tally each, and resolve with the first vote
kind whose tally reaches `quorumSize` (the "for" check runs first, as in
the source).  Returns the decided vote and the number of replies consumed
when resolution fires. -/
def attemptDecideAux (s : ExecutionStats) (k : ℕ) :
    List ClientExecutionResult → Option (Bool × ℕ)
  | [] => none
  | r :: rest =>
      let s' := tallyStep s r
      if s'.votesFor.card = s'.quorumSize then some (true, k + 1)
      else if s'.votesAgainst.card = s'.quorumSize then some (false, k + 1)
      else attemptDecideAux s' (k + 1) rest

/-- Resolution of one full attempt over the arrival-ordered reply list. -/
def attemptDecide (rs : List ClientExecutionResult) : Option (Bool × ℕ) :=
  attemptDecideAux (initStats rs.length) 0 rs

/-- Total number of votes recorded in a stats record, the quantity the
`done` condition of `_attemptOperation` compares with `membershipSize`. -/
def voteSum (s : ExecutionStats) : ℕ :=
  s.votesFor.card + s.votesAgainst.card

/-- C1: an `acquire` call with integer duration whose quorum execution
succeeds returns a lock handle whose expiration is
`start + duration - (round(driftFactor * duration) + 2)`, where the drift
factor is the per-call override when one is supplied and the coordinator's
configured value otherwise. -/
theorem acquire_expiration (start : ℚ) (value : String)
    (resources : List String) (duration : ℚ) (dfO : Option ℚ) (dfC : ℚ)
    (rc : Option ℤ) (attempts : List Bool)
    (relOut : Except RError (List Bool))
    (hdur : (⌊duration⌋ : ℚ) = duration) :
    (acquire start value resources duration dfO dfC rc (.ok attempts)
        relOut).1 =
      .ok ⟨resources, value, attempts,
        start + duration - ((round ((dfO.getD dfC) * duration) + 2 : ℤ) : ℚ)⟩ := by
  simp [acquire, hdur]

/-- Witness for `acquire_expiration`: with the default drift factor `0.01`
and duration `10000`, the deadline is `0 + 10000 - (100 + 2) = 9898`; a
supplied override `0.1` gives `0 + 10000 - (1000 + 2) = 8998`. -/
theorem acquire_expiration_witness :
    (acquire 0 "v" ["r"] 10000 none defaultSettings.driftFactor none
        (.ok [true]) (.ok [])).1 = .ok ⟨["r"], "v", [true], 9898⟩ ∧
    (acquire 0 "v" ["r"] 10000 (some (1 / 10)) defaultSettings.driftFactor
        none (.ok [true]) (.ok [])).1 = .ok ⟨["r"], "v", [true], 8998⟩ := by
  have h1 := acquire_expiration 0 "v" ["r"] 10000 none
    defaultSettings.driftFactor none [true] (.ok []) (by norm_num)
  have h2 := acquire_expiration 0 "v" ["r"] 10000 (some (1 / 10))
    defaultSettings.driftFactor none [true] (.ok []) (by norm_num)
  rw [h1, h2]
  constructor <;> norm_num [defaultSettings, round_eq, Lock.mk.injEq]

/-- C5 (amended): extending a lock whose expiration is behind the current
monotonic reading fails with the message
`Cannot extend an already-expired lock.` carried by an `ExecutionError`
with an empty attempts list (not a plain `Error`), and no store-side
script is executed. -/
theorem extend_expired (existing : Lock) (duration start now2 : ℚ)
    (dfO : Option ℚ) (dfC : ℚ) (rc : Option ℤ)
    (out : Except RError (List Bool))
    (hdur : (⌊duration⌋ : ℚ) = duration)
    (hexp : existing.expiration < now2) :
    extend existing duration start now2 dfO dfC rc out =
      (existing,
       .error (.executionError "Cannot extend an already-expired lock." []),
       []) := by
  simp [extend, hdur, hexp]

/-- Witness for `extend_expired`: a handle with expiration `0` observed at
time `5`. -/
theorem extend_expired_witness :
    extend ⟨["r"], "v", [], 0⟩ 10 5 5 none (1 / 100) none (.ok []) =
      (⟨["r"], "v", [], 0⟩,
       .error (.executionError "Cannot extend an already-expired lock." []),
       []) :=
  extend_expired ⟨["r"], "v", [], 0⟩ 10 5 5 none (1 / 100) none (.ok [])
    (by norm_num) (by norm_num)

/-- Counterexample to C5 as stated: at a concrete expired handle, the
failure `extend` produces is an `ExecutionError` (with empty attempts),
not a plain domain `Error` as the claim asserts. -/
theorem extend_expired_error_kind :
    (extend ⟨["r"], "v", [], 0⟩ 10 5 5 none (1 / 100) none (.ok [])).2.1 =
      .error (.executionError "Cannot extend an already-expired lock." []) ∧
    (extend ⟨["r"], "v", [], 0⟩ 10 5 5 none (1 / 100) none (.ok [])).2.1 ≠
      .error (.error "Cannot extend an already-expired lock.") := by
  constructor <;> simp [extend]

/-- C7: `release` zeroes the handle's expiration whatever the quorum
outcome is, touching no other field; `extend` zeroes the old handle only
when its quorum execution succeeds, returning a replacement with the same
resources and value, and leaves the old handle fully unchanged whenever it
fails. -/
theorem lock_mutation_frame :
    (∀ (lock : Lock) (rc : Option ℤ) (out : Except RError (List Bool)),
      (release lock rc out).1 = { lock with expiration := 0 }) ∧
    (∀ (existing : Lock) (duration start now2 : ℚ) (dfO : Option ℚ)
        (dfC : ℚ) (rc : Option ℤ) (attempts : List Bool),
      (⌊duration⌋ : ℚ) = duration → ¬existing.expiration < now2 →
      (extend existing duration start now2 dfO dfC rc (.ok attempts)).1 =
          { existing with expiration := 0 } ∧
        ∃ repl : Lock,
          (extend existing duration start now2 dfO dfC rc
              (.ok attempts)).2.1 = .ok repl ∧
          repl.resources = existing.resources ∧
          repl.value = existing.value) ∧
    (∀ (existing : Lock) (duration start now2 : ℚ) (dfO : Option ℚ)
        (dfC : ℚ) (rc : Option ℤ) (out : Except RError (List Bool))
        (e : RError),
      (extend existing duration start now2 dfO dfC rc out).2.1 = .error e →
      (extend existing duration start now2 dfO dfC rc out).1 = existing) := by
  refine ⟨fun lock rc out => rfl, ?_, ?_⟩
  · intro existing duration start now2 dfO dfC rc attempts hdur hexp
    refine ⟨by simp [extend, hdur, hexp], ?_⟩
    refine ⟨⟨existing.resources, existing.value, attempts,
      start + duration -
        (((round ((dfO.getD dfC) * duration) : ℤ) : ℚ) + 2)⟩, ?_, rfl, rfl⟩
    simp [extend, hdur, hexp]
  · intro existing duration start now2 dfO dfC rc out e h
    by_cases hdur : (⌊duration⌋ : ℚ) ≠ duration
    · simp [extend, hdur]
    · by_cases hexp : existing.expiration < now2
      · simp [extend, hdur, hexp]
      · cases out with
        | error e' => simp [extend, hdur, hexp]
        | ok attempts => simp [extend, hdur, hexp] at h

/-- Witness for `lock_mutation_frame`: a concrete release, a concrete
successful extend, and a concrete failed extend. -/
theorem lock_mutation_frame_witness :
    (release ⟨["r"], "v", [true], 50⟩ none (.error (.error "boom"))).1 =
      ⟨["r"], "v", [true], 0⟩ ∧
    (extend ⟨["r"], "v", [true], 50⟩ 10 5 5 none (1 / 100) none
        (.ok [true])).1 = ⟨["r"], "v", [true], 0⟩ ∧
    (extend ⟨["r"], "v", [true], 50⟩ 10 5 5 none (1 / 100) none
        (.error (.executionError "The operation was unable to achieve a quorum during its retry window." [false]))).1 =
      ⟨["r"], "v", [true], 50⟩ := by
  refine ⟨lock_mutation_frame.1 _ none _, ?_, ?_⟩
  · exact (lock_mutation_frame.2.1 ⟨["r"], "v", [true], 50⟩ 10 5 5 none
      (1 / 100) none [true] (by norm_num) (by norm_num)).1
  · exact lock_mutation_frame.2.2 ⟨["r"], "v", [true], 50⟩ 10 5 5 none
      (1 / 100) none
      (.error (.executionError
        "The operation was unable to achieve a quorum during its retry window."
        [false]))
      (.executionError
        "The operation was unable to achieve a quorum during its retry window."
        [false])
      (by norm_num [extend])

/-- C8: when the quorum execution of `acquire` throws, the coordinator
issues exactly one cleanup release with the same resources and the same
generated value under a `retryCount: 0` override, the cleanup's own
outcome is swallowed (the result does not depend on it), and the original
error is rethrown unchanged. -/
theorem acquire_cleanup (start : ℚ) (value : String)
    (resources : List String) (duration : ℚ) (dfO : Option ℚ) (dfC : ℚ)
    (rc : Option ℤ) (e : RError) (relOut : Except RError (List Bool))
    (hdur : (⌊duration⌋ : ℚ) = duration) :
    acquire start value resources duration dfO dfC rc (.error e) relOut =
      (.error e,
       [⟨.acquireScript, resources, [.str value, .num duration], rc⟩,
        ⟨.releaseScript, resources, [.str value], some 0⟩]) := by
  simp [acquire, hdur]

/-- Witness for `acquire_cleanup`: a concrete failed acquisition whose
cleanup release itself fails; the original error still surfaces. -/
theorem acquire_cleanup_witness :
    acquire 0 "v" ["r1", "r2"] 10000 none (1 / 100) none
        (.error (.executionError "The operation was unable to achieve a quorum during its retry window." [false]))
        (.error (.error "cleanup failed")) =
      (.error (.executionError "The operation was unable to achieve a quorum during its retry window." [false]),
       [⟨.acquireScript, ["r1", "r2"], [.str "v", .num 10000], none⟩,
        ⟨.releaseScript, ["r1", "r2"], [.str "v"], some 0⟩]) :=
  acquire_cleanup 0 "v" ["r1", "r2"] 10000 none (1 / 100) none
    (.executionError
      "The operation was unable to achieve a quorum during its retry window."
      [false])
    (.error (.error "cleanup failed")) (by norm_num)

/-- C9: with a non-integer duration, `acquire`, `extend` and `using` all
fail with `Duration must be an integer value in milliseconds.` without
contacting any store; and `using` also rejects (before acquiring) when the
effective `automaticExtensionThreshold` exceeds `duration - 100`. -/
theorem duration_threshold_guards (duration : ℚ)
    (hdur : (⌊duration⌋ : ℚ) ≠ duration) :
    (∀ start value resources dfO dfC rc out relOut,
      acquire start value resources duration dfO dfC rc out relOut =
        (.error (.error "Duration must be an integer value in milliseconds."),
         [])) ∧
    (∀ existing start now2 dfO dfC rc out,
      extend existing duration start now2 dfO dfC rc out =
        (existing,
         .error (.error "Duration must be an integer value in milliseconds."),
         [])) ∧
    (∀ tO tC r, usingEntry duration tO tC r =
        (.error (.error "Duration must be an integer value in milliseconds."),
         false)) ∧
    (∀ d2 : ℚ, (⌊d2⌋ : ℚ) = d2 → ∀ tO tC,
      tO.getD tC > d2 - 100 →
      usingEntry d2 tO tC true =
        (.error (.error
          "A lock `duration` must be at least 100ms greater than the `automaticExtensionThreshold` setting."),
         false)) := by
  refine ⟨?_, ?_, ?_, ?_⟩
  · intro start value resources dfO dfC rc out relOut
    simp [acquire, hdur]
  · intro existing start now2 dfO dfC rc out
    simp [extend, hdur]
  · intro tO tC r
    simp [usingEntry, hdur]
  · intro d2 hd2 tO tC hthr
    simp [usingEntry, hd2, hthr]

/-- Witness for `duration_threshold_guards`: duration `10000.5` (i.e.
`20001/2`) trips the integer check of all three methods, and `using` with
duration `500` under the default threshold `500 > 400` trips the headroom
check. -/
theorem duration_threshold_guards_witness :
    acquire 0 "v" ["r"] (20001 / 2) none (1 / 100) none (.ok [true])
        (.ok []) =
      (.error (.error "Duration must be an integer value in milliseconds."),
       []) ∧
    usingEntry 500 none defaultSettings.automaticExtensionThreshold true =
      (.error (.error
        "A lock `duration` must be at least 100ms greater than the `automaticExtensionThreshold` setting."),
       false) := by
  have h := duration_threshold_guards (20001 / 2) (by norm_num)
  refine ⟨h.1 0 "v" ["r"] none (1 / 100) none (.ok [true]) (.ok []), ?_⟩
  exact h.2.2.2 500 (by norm_num) none
    defaultSettings.automaticExtensionThreshold
    (by norm_num [defaultSettings])

/-- With `retryCount = -1` the `_execute` loop never throws: for every step
budget it is still running (helper for the retry-accounting claim). -/
theorem executeAux_unlimited (votes : ℕ → Bool) (h : ∀ j, votes j = false) :
    ∀ (fuel k : ℕ) (acc : List Bool),
      executeAux votes (-1) k acc fuel = none := by
  intro fuel
  induction fuel with
  | zero => intro k acc; rfl
  | succ n ih =>
      intro k acc
      simp only [executeAux, h k, Bool.false_eq_true, if_false, true_or,
        if_true]
      exact ih (k + 1) _

/-- With `retryCount ≥ 0` and every attempt voting "against", the
`_execute` loop throws after exactly `retryCount + 1` attempts (helper,
stated for an arbitrary loop entry state). -/
theorem executeAux_exhausts (votes : ℕ → Bool) (rc : ℤ)
    (h : ∀ j, votes j = false) (hrc : 0 ≤ rc) :
    ∀ (fuel k : ℕ) (acc : List Bool), acc.length = k → k ≤ rc.toNat →
      rc.toNat + 1 - k ≤ fuel →
      executeAux votes rc k acc fuel =
        some (.failure (acc ++ List.replicate (rc.toNat + 1 - k) false)) := by
  intro fuel
  induction fuel with
  | zero => intro k acc _ hk hfuel; omega
  | succ n ih =>
      intro k acc hlen hk hfuel
      simp only [executeAux, h k, Bool.false_eq_true, if_false]
      by_cases hcase : k < rc.toNat
      · rw [if_pos]
        · rw [ih (k + 1) (acc ++ [false]) (by simp [hlen]) (by omega)
            (by omega)]
          have hsplit : rc.toNat + 1 - k = (rc.toNat + 1 - (k + 1)) + 1 := by
            omega
          rw [hsplit, List.replicate_succ, List.append_assoc]
          rfl
        · right
          simp only [List.length_append, List.length_cons, List.length_nil,
            hlen]
          omega
      · rw [if_neg]
        · have hone : rc.toNat + 1 - k = 1 := by omega
          rw [hone]
          rfl
        · simp only [List.length_append, List.length_cons, List.length_nil,
            hlen]
          rintro (h1 | h2)
          · omega
          · omega

/-- C2: when every attempt fails to reach a "for" quorum, the retry driver
with effective `retryCount ≥ 0` rejects with an `ExecutionError` whose
attempts list has length exactly `retryCount + 1` (it is the list of the
`retryCount + 1` against-votes); with `retryCount = -1` it retries without
bound, never rejecting for an exhausted budget (the loop is still running
under every step budget). -/
theorem execute_retry_accounting (votes : ℕ → Bool) (retryCount : ℤ)
    (h : ∀ k, votes k = false) :
    (0 ≤ retryCount → ∀ fuel, retryCount.toNat + 1 ≤ fuel →
      executeRun votes retryCount fuel =
          some (.failure (List.replicate (retryCount.toNat + 1) false)) ∧
        (List.replicate (retryCount.toNat + 1) false).length =
          retryCount.toNat + 1) ∧
    (retryCount = -1 → ∀ fuel, executeRun votes retryCount fuel = none) := by
  constructor
  · intro hrc fuel hfuel
    refine ⟨?_, by simp⟩
    have hx := executeAux_exhausts votes retryCount h hrc fuel 0 [] rfl
      (by omega) (by omega)
    simpa [executeRun] using hx
  · intro hrc fuel
    subst hrc
    exact executeAux_unlimited votes h fuel 0 []

/-- Witness for `execute_retry_accounting`: under the default
`retryCount = 10` the rejection carries 11 attempts; under `-1` no budget
of up to 60 steps terminates the loop. -/
theorem execute_retry_accounting_witness :
    executeRun (fun _ => false) defaultSettings.retryCount 11 =
        some (.failure (List.replicate 11 false)) ∧
    executeRun (fun _ => false) (-1) 60 = none := by
  constructor
  · have hx := (execute_retry_accounting (fun _ => false)
      defaultSettings.retryCount (fun _ => rfl)).1 (by decide) 11 (by decide)
    simpa [defaultSettings] using hx.1
  · exact (execute_retry_accounting (fun _ => false) (-1)
      (fun _ => rfl)).2 rfl 60

/-- C3: when the script invocation yields an integer reply `n`, the store
invoker votes "for" exactly when `n` equals the number of keys; any other
reply (in particular any smaller one) produces an "against" vote carrying a
`ResourceLockedError` with the message
`The operation was applied to: N of the M requested resources.`, which is
also emitted on the error channel; a thrown `Error` becomes an "against"
vote carrying and emitting that error; the per-store promise fulfills
(`.ok`) in all of these cases. -/
theorem attemptOnClient_vote_rules (client : ℕ) (script : ScriptPair)
    (keys : List String) (args : List RVal) (b : ClientBehavior) :
    (∀ n : ℤ, (innerTry script keys args b).1 = .ok n →
      (attemptOperationOnClient client script keys args b =
          .ok (.forVote client n, []) ↔ n = (keys.length : ℤ))) ∧
    (∀ n : ℤ, (innerTry script keys args b).1 = .ok n →
      n ≠ (keys.length : ℤ) →
      attemptOperationOnClient client script keys args b =
        .ok (.againstVote client (.resourceLockedError
              ("The operation was applied to: " ++ toString n ++ " of the " ++
               toString keys.length ++ " requested resources.")),
             [.resourceLockedError
              ("The operation was applied to: " ++ toString n ++ " of the " ++
               toString keys.length ++ " requested resources.")])) ∧
    (∀ e : RError, (innerTry script keys args b).1 = .error (.err e) →
      attemptOperationOnClient client script keys args b =
        .ok (.againstVote client e, [e])) := by
  refine ⟨?_, ?_, ?_⟩
  · intro n hn
    by_cases hlen : n = (keys.length : ℤ)
    · simp [attemptOperationOnClient, hn, hlen]
    · simp [attemptOperationOnClient, hn, hlen]
  · intro n hn hlen
    simp [attemptOperationOnClient, hn, hlen]
  · intro e he
    simp [attemptOperationOnClient, he]

/-- Witness for `attemptOnClient_vote_rules`: over two keys, a reply of 2
yields a "for" vote, a reply of 1 yields the `ResourceLockedError`
against-vote with its message, and a thrown connection error yields an
against-vote carrying it. -/
theorem attemptOnClient_vote_rules_witness :
    attemptOperationOnClient 0 ⟨"s", "h"⟩ ["a", "b"] []
        ⟨.ok (.num 2), .ok .nil⟩ = .ok (.forVote 0 2, []) ∧
    attemptOperationOnClient 0 ⟨"s", "h"⟩ ["a", "b"] []
        ⟨.ok (.num 1), .ok .nil⟩ =
      .ok (.againstVote 0 (.resourceLockedError
            "The operation was applied to: 1 of the 2 requested resources."),
           [.resourceLockedError
            "The operation was applied to: 1 of the 2 requested resources."]) ∧
    attemptOperationOnClient 0 ⟨"s", "h"⟩ ["a", "b"] []
        ⟨.error (.err (.error "Connection is closed.")), .ok .nil⟩ =
      .ok (.againstVote 0 (.error "Connection is closed."),
           [.error "Connection is closed."]) := by
  refine ⟨?_, ?_, ?_⟩
  · exact ((attemptOnClient_vote_rules 0 ⟨"s", "h"⟩ ["a", "b"] []
      ⟨.ok (.num 2), .ok .nil⟩).1 2 (by decide)).mpr (by decide)
  · have hx := (attemptOnClient_vote_rules 0 ⟨"s", "h"⟩ ["a", "b"] []
      ⟨.ok (.num 1), .ok .nil⟩).2.1 1 (by decide) (by decide)
    exact hx
  · exact (attemptOnClient_vote_rules 0 ⟨"s", "h"⟩ ["a", "b"] []
      ⟨.error (.err (.error "Connection is closed.")), .ok .nil⟩).2.2
      (.error "Connection is closed.") (by decide)

/-- Helper: when `evalsha` throws an `Error` whose message carries the
dash-prefixed `NOSCRIPT` indicator, the invoker falls back to `eval`. -/
theorem innerTry_fallback (script : ScriptPair) (keys : List String)
    (args : List RVal) (b : ClientBehavior) (e : JsThrown)
    (hsha : b.evalshaResult = .error e)
    (hcond : (e.isErrorInstance && jsStartsWith e.msg "-NOSCRIPT") = true) :
    innerTry script keys args b =
      (evalStep b, [.evalshaCall script.hash keys args,
                    .evalCall script.value keys args]) := by
  simp [innerTry, shaStep, hsha, hcond]

/-- Helper: any other thrown value propagates without an `eval` call. -/
theorem innerTry_nofallback (script : ScriptPair) (keys : List String)
    (args : List RVal) (b : ClientBehavior) (e : JsThrown)
    (hsha : b.evalshaResult = .error e)
    (hcond : (e.isErrorInstance && jsStartsWith e.msg "-NOSCRIPT") = false) :
    innerTry script keys args b =
      (.error e, [.evalshaCall script.hash keys args]) := by
  simp [innerTry, shaStep, hsha, hcond]

/-- C4 (amended): the store invoker falls back from `evalsha` to a single
`eval` with the raw script text on the same keys and args exactly when the
thrown value is an `Error` whose message starts with `-NOSCRIPT` (the
dash-prefixed indicator the Deno client surfaces); any other thrown value
propagates without an `eval` retry. -/
theorem noscript_retry (script : ScriptPair) (keys : List String)
    (args : List RVal) (b : ClientBehavior) (e : JsThrown)
    (hsha : b.evalshaResult = .error e) :
    ((e.isErrorInstance && jsStartsWith e.msg "-NOSCRIPT") = true →
      innerTry script keys args b =
        (evalStep b, [.evalshaCall script.hash keys args,
                      .evalCall script.value keys args])) ∧
    ((e.isErrorInstance && jsStartsWith e.msg "-NOSCRIPT") = false →
      innerTry script keys args b =
        (.error e, [.evalshaCall script.hash keys args])) :=
  ⟨innerTry_fallback script keys args b e hsha,
   innerTry_nofallback script keys args b e hsha⟩

/-- Witness for `noscript_retry`: a dash-prefixed `NOSCRIPT` error falls
back to `eval` (which here replies 1), while a connection error does
not. -/
theorem noscript_retry_witness :
    innerTry ⟨"s", "h"⟩ ["a"] []
        ⟨.error (.err (.error "-NOSCRIPT No matching script. Please use EVAL.")),
         .ok (.num 1)⟩ =
      (.ok 1, [.evalshaCall "h" ["a"] [], .evalCall "s" ["a"] []]) ∧
    innerTry ⟨"s", "h"⟩ ["a"] []
        ⟨.error (.err (.error "Connection is closed.")), .ok (.num 1)⟩ =
      (.error (.err (.error "Connection is closed.")),
       [.evalshaCall "h" ["a"] []]) := by
  constructor
  · have hx := (noscript_retry ⟨"s", "h"⟩ ["a"] []
      ⟨.error (.err (.error "-NOSCRIPT No matching script. Please use EVAL.")),
       .ok (.num 1)⟩
      (.err (.error "-NOSCRIPT No matching script. Please use EVAL."))
      rfl).1 (by decide)
    rw [hx]
    decide
  · exact (noscript_retry ⟨"s", "h"⟩ ["a"] []
      ⟨.error (.err (.error "Connection is closed.")), .ok (.num 1)⟩
      (.err (.error "Connection is closed.")) rfl).2 (by decide)

/-- Counterexample to C4 as stated: an error whose message starts with
`NOSCRIPT` but not with `-NOSCRIPT` is *not* retried — the invoker makes
no `eval` call and propagates the original error — even though `eval`
would have returned the integer 1 here. -/
theorem noscript_retry_counterexample :
    innerTry ⟨"script-text", "hash"⟩ ["a"] []
        ⟨.error (.err (.error "NOSCRIPT No matching script. Please use EVAL.")),
         .ok (.num 1)⟩ =
      (.error (.err (.error "NOSCRIPT No matching script. Please use EVAL.")),
       [.evalshaCall "hash" ["a"] []]) ∧
    evalStep ⟨.error (.err (.error "NOSCRIPT No matching script. Please use EVAL.")),
              .ok (.num 1)⟩ = .ok 1 := by
  decide

/-- C10: a non-number reply from `evalsha`, or from the `eval` fallback,
does not reject the per-store promise: it is converted into an "against"
vote carrying `Unexpected result of type <type> returned from redis.`,
emitted on the error channel like any other against-vote. -/
theorem unexpected_reply_type (client : ℕ) (script : ScriptPair)
    (keys : List String) (args : List RVal) (r : RedisReply)
    (hnum : ∀ n, r ≠ .num n) :
    (∀ b : ClientBehavior, b.evalshaResult = .ok r →
      attemptOperationOnClient client script keys args b =
        .ok (.againstVote client (.error
              ("Unexpected result of type " ++ jsTypeof r ++
               " returned from redis.")),
             [.error ("Unexpected result of type " ++ jsTypeof r ++
               " returned from redis.")])) ∧
    (∀ (b : ClientBehavior) (e : JsThrown), b.evalshaResult = .error e →
      (e.isErrorInstance && jsStartsWith e.msg "-NOSCRIPT") = true →
      b.evalResult = .ok r →
      attemptOperationOnClient client script keys args b =
        .ok (.againstVote client (.error
              ("Unexpected result of type " ++ jsTypeof r ++
               " returned from redis.")),
             [.error ("Unexpected result of type " ++ jsTypeof r ++
               " returned from redis.")])) := by
  constructor
  · intro b hsha
    cases r with
    | num n => exact absurd rfl (hnum n)
    | str s =>
        simp [attemptOperationOnClient, innerTry, shaStep, hsha, jsTypeof,
          JsThrown.isErrorInstance, JsThrown.msg, jsStartsWith,
          List.isPrefixOf]
    | nil =>
        simp [attemptOperationOnClient, innerTry, shaStep, hsha, jsTypeof,
          JsThrown.isErrorInstance, JsThrown.msg, jsStartsWith,
          List.isPrefixOf]
    | arr =>
        simp [attemptOperationOnClient, innerTry, shaStep, hsha, jsTypeof,
          JsThrown.isErrorInstance, JsThrown.msg, jsStartsWith,
          List.isPrefixOf]
  · intro b e hsha hcond heval
    have hin := innerTry_fallback script keys args b e hsha hcond
    cases r with
    | num n => exact absurd rfl (hnum n)
    | str s =>
        simp [attemptOperationOnClient, hin, evalStep, heval, jsTypeof]
    | nil =>
        simp [attemptOperationOnClient, hin, evalStep, heval, jsTypeof]
    | arr =>
        simp [attemptOperationOnClient, hin, evalStep, heval, jsTypeof]

/-- Witness for `unexpected_reply_type`: a string reply from `evalsha`,
and a nil reply from the `eval` fallback after a `-NOSCRIPT` error. -/
theorem unexpected_reply_type_witness :
    attemptOperationOnClient 0 ⟨"s", "h"⟩ ["a"] []
        ⟨.ok (.str "OK"), .ok (.num 1)⟩ =
      .ok (.againstVote 0 (.error
            "Unexpected result of type string returned from redis."),
           [.error "Unexpected result of type string returned from redis."]) ∧
    attemptOperationOnClient 0 ⟨"s", "h"⟩ ["a"] []
        ⟨.error (.err (.error "-NOSCRIPT No matching script. Please use EVAL.")),
         .ok .nil⟩ =
      .ok (.againstVote 0 (.error
            "Unexpected result of type undefined returned from redis."),
           [.error "Unexpected result of type undefined returned from redis."]) := by
  constructor
  · exact (unexpected_reply_type 0 ⟨"s", "h"⟩ ["a"] [] (.str "OK")
      (by intro n h; cases h)).1 ⟨.ok (.str "OK"), .ok (.num 1)⟩ rfl
  · exact (unexpected_reply_type 0 ⟨"s", "h"⟩ ["a"] [] .nil
      (by intro n h; cases h)).2
      ⟨.error (.err (.error "-NOSCRIPT No matching script. Please use EVAL.")),
       .ok .nil⟩
      (.err (.error "-NOSCRIPT No matching script. Please use EVAL."))
      rfl (by decide) rfl

/-- Tallying a vote never changes `membershipSize`. -/
theorem tallyStep_membershipSize (s : ExecutionStats)
    (r : ClientExecutionResult) :
    (tallyStep s r).membershipSize = s.membershipSize := by
  cases r <;> rfl

/-- Tallying a vote never changes `quorumSize`. -/
theorem tallyStep_quorumSize (s : ExecutionStats)
    (r : ClientExecutionResult) :
    (tallyStep s r).quorumSize = s.quorumSize := by
  cases r <;> rfl

/-- Tallying any reply sequence never changes `membershipSize`. -/
theorem foldl_tallyStep_membershipSize :
    ∀ (l : List ClientExecutionResult) (s : ExecutionStats),
      (l.foldl tallyStep s).membershipSize = s.membershipSize := by
  intro l
  induction l with
  | nil => intro s; rfl
  | cons r t ih =>
      intro s
      rw [List.foldl_cons, ih, tallyStep_membershipSize]

/-- Tallying any reply sequence never changes `quorumSize`. -/
theorem foldl_tallyStep_quorumSize :
    ∀ (l : List ClientExecutionResult) (s : ExecutionStats),
      (l.foldl tallyStep s).quorumSize = s.quorumSize := by
  intro l
  induction l with
  | nil => intro s; rfl
  | cons r t ih =>
      intro s
      rw [List.foldl_cons, ih, tallyStep_quorumSize]

/-- One tallied vote grows the total vote count by at most one. -/
theorem voteSum_tallyStep_le (s : ExecutionStats)
    (r : ClientExecutionResult) :
    voteSum (tallyStep s r) ≤ voteSum s + 1 := by
  cases r with
  | forVote c v =>
      have := Finset.card_insert_le c s.votesFor
      simp only [tallyStep, voteSum]
      omega
  | againstVote c e =>
      have := Finset.card_insert_le c s.votesAgainst
      simp only [tallyStep, voteSum]
      omega

/-- Tallying a reply sequence grows the total vote count by at most its
length. -/
theorem voteSum_foldl_le :
    ∀ (l : List ClientExecutionResult) (s : ExecutionStats),
      voteSum (l.foldl tallyStep s) ≤ voteSum s + l.length := by
  intro l
  induction l with
  | nil => intro s; simp
  | cons r t ih =>
      intro s
      rw [List.foldl_cons]
      have h1 := ih (tallyStep s r)
      have h2 := voteSum_tallyStep_le s r
      simp only [List.length_cons]
      omega

/-- Tallying a reply sequence of pairwise-distinct clients, none of which
has voted yet, grows the total vote count by exactly its length. -/
theorem voteSum_foldl_eq :
    ∀ (l : List ClientExecutionResult) (s : ExecutionStats),
      (l.map clientOf).Nodup →
      (∀ r ∈ l, clientOf r ∉ s.votesFor ∧ clientOf r ∉ s.votesAgainst) →
      voteSum (l.foldl tallyStep s) = voteSum s + l.length := by
  intro l
  induction l with
  | nil => intro s _ _; simp
  | cons r t ih =>
      intro s hnd hfresh
      rw [List.map_cons, List.nodup_cons] at hnd
      obtain ⟨hnotin, hndt⟩ := hnd
      have hr := hfresh r (List.mem_cons_self r t)
      have hstep : voteSum (tallyStep s r) = voteSum s + 1 := by
        cases r with
        | forVote c v =>
            simp only [clientOf] at hr
            simp only [tallyStep, voteSum]
            rw [Finset.card_insert_of_not_mem hr.1]
            omega
        | againstVote c e =>
            simp only [clientOf] at hr
            simp only [tallyStep, voteSum]
            rw [Finset.card_insert_of_not_mem hr.2]
            omega
      have hfresh' : ∀ r' ∈ t,
          clientOf r' ∉ (tallyStep s r).votesFor ∧
          clientOf r' ∉ (tallyStep s r).votesAgainst := by
        intro r' hr'
        have hne : clientOf r' ≠ clientOf r := by
          intro he
          exact hnotin (he ▸ List.mem_map_of_mem clientOf hr')
        have hf := hfresh r' (List.mem_cons_of_mem r hr')
        cases r with
        | forVote c v =>
            refine ⟨?_, hf.2⟩
            simp only [tallyStep, Finset.mem_insert]
            push_neg
            exact ⟨by simpa [clientOf] using hne, hf.1⟩
        | againstVote c e =>
            refine ⟨hf.1, ?_⟩
            simp only [tallyStep, Finset.mem_insert]
            push_neg
            exact ⟨by simpa [clientOf] using hne, hf.2⟩
      rw [List.foldl_cons, ih (tallyStep s r) hndt hfresh', hstep,
        List.length_cons]
      omega

/-- The running stats record always carries the fan-out's membership
size. -/
theorem statsAfter_membershipSize (rs : List ClientExecutionResult)
    (k : ℕ) : (statsAfter rs k).membershipSize = rs.length := by
  unfold statsAfter
  rw [foldl_tallyStep_membershipSize]
  rfl

/-- The running stats record always carries `floor(N/2) + 1` as its quorum
size. -/
theorem statsAfter_quorumSize (rs : List ClientExecutionResult) (k : ℕ) :
    (statsAfter rs k).quorumSize = rs.length / 2 + 1 := by
  unfold statsAfter
  rw [foldl_tallyStep_quorumSize]
  rfl

/-- At any point of the attempt the two vote sets hold at most
`membershipSize` votes in total. -/
theorem statsAfter_voteSum_le (rs : List ClientExecutionResult) (k : ℕ) :
    voteSum (statsAfter rs k) ≤ rs.length := by
  unfold statsAfter
  have h1 := voteSum_foldl_le (rs.take k) (initStats rs.length)
  have h2 : (rs.take k).length = min k rs.length := List.length_take k rs
  have h3 : voteSum (initStats rs.length) = 0 := rfl
  have h4 : min k rs.length ≤ rs.length := min_le_right k rs.length
  omega

/-- With pairwise-distinct clients, the total vote count after `k` replies
is exactly `k`. -/
theorem statsAfter_voteSum_eq (rs : List ClientExecutionResult) (k : ℕ)
    (h : (rs.map clientOf).Nodup) (hk : k ≤ rs.length) :
    voteSum (statsAfter rs k) = k := by
  unfold statsAfter
  rw [voteSum_foldl_eq]
  · have h2 : (rs.take k).length = min k rs.length := List.length_take k rs
    have h3 : voteSum (initStats rs.length) = 0 := rfl
    omega
  · rw [List.map_take]
    exact h.sublist (List.take_sublist k (rs.map clientOf))
  · intro r _
    exact ⟨Finset.not_mem_empty _, Finset.not_mem_empty _⟩

/-- Characterisation of a resolving scan: if the attempt resolves with vote
`v` after consuming `m` replies, then the tally right after the `m`-th
reply has the corresponding side at quorum and no earlier nonempty prefix
had either side at quorum. -/
theorem attemptDecideAux_some_spec :
    ∀ (rs : List ClientExecutionResult) (s : ExecutionStats) (k : ℕ)
      (v : Bool) (m : ℕ),
      attemptDecideAux s k rs = some (v, m) →
      ∃ j, j < rs.length ∧ m = k + j + 1 ∧
        (v = true →
          ((rs.take (j + 1)).foldl tallyStep s).votesFor.card =
            s.quorumSize) ∧
        (v = false →
          ((rs.take (j + 1)).foldl tallyStep s).votesFor.card ≠
              s.quorumSize ∧
            ((rs.take (j + 1)).foldl tallyStep s).votesAgainst.card =
              s.quorumSize) ∧
        ∀ i < j,
          ((rs.take (i + 1)).foldl tallyStep s).votesFor.card ≠
              s.quorumSize ∧
            ((rs.take (i + 1)).foldl tallyStep s).votesAgainst.card ≠
              s.quorumSize := by
  intro rs
  induction rs with
  | nil =>
      intro s k v m h
      exact absurd h (by simp [attemptDecideAux])
  | cons r t ih =>
      intro s k v m h
      have h' :
          (if (tallyStep s r).votesFor.card = (tallyStep s r).quorumSize
            then some (true, k + 1)
            else if (tallyStep s r).votesAgainst.card =
                (tallyStep s r).quorumSize
              then some (false, k + 1)
              else attemptDecideAux (tallyStep s r) (k + 1) t) =
            some (v, m) := h
      by_cases h1 :
          (tallyStep s r).votesFor.card = (tallyStep s r).quorumSize
      · rw [if_pos h1] at h'
        obtain ⟨hv, hm⟩ : true = v ∧ k + 1 = m := by
          have := Option.some.inj h'
          exact ⟨congrArg Prod.fst this, congrArg Prod.snd this⟩
        refine ⟨0, by simp, by omega, ?_, ?_, fun i hi => absurd hi (by omega)⟩
        · intro _
          rw [List.take_succ_cons, List.take_zero, List.foldl_cons,
            List.foldl_nil]
          rw [tallyStep_quorumSize] at h1
          exact h1
        · intro hvf
          rw [← hv] at hvf
          exact absurd hvf (by decide)
      · by_cases h2 :
            (tallyStep s r).votesAgainst.card = (tallyStep s r).quorumSize
        · rw [if_neg h1, if_pos h2] at h'
          obtain ⟨hv, hm⟩ : false = v ∧ k + 1 = m := by
            have := Option.some.inj h'
            exact ⟨congrArg Prod.fst this, congrArg Prod.snd this⟩
          refine ⟨0, by simp, by omega, ?_, ?_,
            fun i hi => absurd hi (by omega)⟩
          · intro hvt
            rw [← hv] at hvt
            exact absurd hvt (by decide)
          · intro _
            rw [List.take_succ_cons, List.take_zero, List.foldl_cons,
              List.foldl_nil]
            rw [tallyStep_quorumSize] at h1 h2
            exact ⟨h1, h2⟩
        · rw [if_neg h1, if_neg h2] at h'
          obtain ⟨j', hj'len, hm, hvt, hvf, hprev⟩ :=
            ih (tallyStep s r) (k + 1) v m h'
          rw [tallyStep_quorumSize] at hvt hvf hprev
          refine ⟨j' + 1, by simpa using Nat.succ_lt_succ hj'len, by omega,
            ?_, ?_, ?_⟩
          · intro hv
            rw [List.take_succ_cons, List.foldl_cons]
            exact hvt hv
          · intro hv
            rw [List.take_succ_cons, List.foldl_cons]
            exact hvf hv
          · intro i hi
            match i, hi with
            | 0, _ =>
                rw [List.take_succ_cons, List.take_zero, List.foldl_cons,
                  List.foldl_nil]
                rw [tallyStep_quorumSize] at h1 h2
                exact ⟨h1, h2⟩
            | i' + 1, hi =>
                rw [List.take_succ_cons, List.foldl_cons]
                exact hprev i' (by omega)

/-- Characterisation of a non-resolving scan: if the attempt never
resolves, no nonempty prefix of the replies puts either side at quorum. -/
theorem attemptDecideAux_none_spec :
    ∀ (rs : List ClientExecutionResult) (s : ExecutionStats) (k : ℕ),
      attemptDecideAux s k rs = none →
      ∀ j < rs.length,
        ((rs.take (j + 1)).foldl tallyStep s).votesFor.card ≠
            s.quorumSize ∧
          ((rs.take (j + 1)).foldl tallyStep s).votesAgainst.card ≠
            s.quorumSize := by
  intro rs
  induction rs with
  | nil => intro s k _ j hj; exact absurd hj (by simp)
  | cons r t ih =>
      intro s k h j hj
      have h' :
          (if (tallyStep s r).votesFor.card = (tallyStep s r).quorumSize
            then some (true, k + 1)
            else if (tallyStep s r).votesAgainst.card =
                (tallyStep s r).quorumSize
              then some (false, k + 1)
              else attemptDecideAux (tallyStep s r) (k + 1) t) =
            none := h
      by_cases h1 :
          (tallyStep s r).votesFor.card = (tallyStep s r).quorumSize
      · rw [if_pos h1] at h'
        exact absurd h' (by simp)
      · by_cases h2 :
            (tallyStep s r).votesAgainst.card = (tallyStep s r).quorumSize
        · rw [if_neg h1, if_pos h2] at h'
          exact absurd h' (by simp)
        · rw [if_neg h1, if_neg h2] at h'
          match j, hj with
          | 0, _ =>
              rw [List.take_succ_cons, List.take_zero, List.foldl_cons,
                List.foldl_nil]
              rw [tallyStep_quorumSize] at h1 h2
              exact ⟨h1, h2⟩
          | j' + 1, hj =>
              have := ih (tallyStep s r) (k + 1) h' j'
                (by simpa using Nat.lt_of_succ_lt_succ hj)
              rw [tallyStep_quorumSize] at this
              rw [List.take_succ_cons, List.foldl_cons]
              exact this

/-- C6: for a single attempt whose replies (one per store, in arrival
order) are `rs`, the stats record carries `membershipSize = rs.length` and
`quorumSize = floor(length/2) + 1` throughout; the tallied votes never
exceed the membership size and reach it exactly when every reply is in
(which is when the deferred stats promise resolves); and the attempt
resolves its vote exactly at the first reply that lifts one side to the
quorum size, the resolved side being the one at quorum. -/
theorem attempt_stats_invariants (rs : List ClientExecutionResult)
    (h : (rs.map clientOf).Nodup) :
    (∀ k, (statsAfter rs k).membershipSize = rs.length ∧
      (statsAfter rs k).quorumSize = rs.length / 2 + 1) ∧
    (∀ k, (statsAfter rs k).votesFor.card +
        (statsAfter rs k).votesAgainst.card ≤ rs.length) ∧
    (∀ k ≤ rs.length,
      ((statsAfter rs k).votesFor.card +
          (statsAfter rs k).votesAgainst.card = rs.length ↔
        k = rs.length)) ∧
    (∀ (v : Bool) (m : ℕ), attemptDecide rs = some (v, m) →
      0 < m ∧ m ≤ rs.length ∧
      (v = true →
        (statsAfter rs m).votesFor.card = rs.length / 2 + 1) ∧
      (v = false →
        (statsAfter rs m).votesAgainst.card = rs.length / 2 + 1) ∧
      ∀ j < m,
        (statsAfter rs j).votesFor.card ≠ rs.length / 2 + 1 ∧
          (statsAfter rs j).votesAgainst.card ≠ rs.length / 2 + 1) ∧
    ((∃ k, k ≤ rs.length ∧
        ((statsAfter rs k).votesFor.card = rs.length / 2 + 1 ∨
          (statsAfter rs k).votesAgainst.card = rs.length / 2 + 1)) →
      attemptDecide rs ≠ none) := by
  have hq : (initStats rs.length).quorumSize = rs.length / 2 + 1 := rfl
  refine ⟨fun k => ⟨statsAfter_membershipSize rs k,
    statsAfter_quorumSize rs k⟩, ?_, ?_, ?_, ?_⟩
  · intro k
    have := statsAfter_voteSum_le rs k
    simpa [voteSum] using this
  · intro k hk
    have hsum := statsAfter_voteSum_eq rs k h hk
    rw [voteSum] at hsum
    omega
  · intro v m hd
    obtain ⟨j, hjlen, hm, hvt, hvf, hprev⟩ :=
      attemptDecideAux_some_spec rs (initStats rs.length) 0 v m hd
    rw [hq] at hvt hvf hprev
    refine ⟨by omega, by omega, ?_, ?_, ?_⟩
    · intro hv
      have := hvt hv
      rw [show m = j + 1 by omega]
      exact this
    · intro hv
      have := (hvf hv).2
      rw [show m = j + 1 by omega]
      exact this
    · intro i hi
      match i, hi with
      | 0, _ =>
          have hz1 : (statsAfter rs 0).votesFor.card = 0 := rfl
          have hz2 : (statsAfter rs 0).votesAgainst.card = 0 := rfl
          omega
      | i' + 1, hi =>
          exact hprev i' (by omega)
  · rintro ⟨k, hk, hor⟩ hnone
    have hspec := attemptDecideAux_none_spec rs (initStats rs.length) 0
      hnone
    rw [hq] at hspec
    match k, hk, hor with
    | 0, _, hor =>
        have hz : (statsAfter rs 0).votesFor.card = 0 ∧
            (statsAfter rs 0).votesAgainst.card = 0 := by
          constructor <;> rfl
        omega
    | k' + 1, hk, hor =>
        have := hspec k' (by omega)
        rcases hor with hor | hor
        · exact this.1 hor
        · exact this.2 hor

/-- Witness for `attempt_stats_invariants`: three distinct stores, two
"for" votes and one "against"; quorum size is 2 and all three votes are in
after the third reply. -/
theorem attempt_stats_invariants_witness :
    (statsAfter [ClientExecutionResult.forVote 0 1,
        ClientExecutionResult.againstVote 1 (RError.error "x"),
        ClientExecutionResult.forVote 2 1] 0).quorumSize = 2 ∧
    (statsAfter [ClientExecutionResult.forVote 0 1,
        ClientExecutionResult.againstVote 1 (RError.error "x"),
        ClientExecutionResult.forVote 2 1] 3).votesFor.card +
      (statsAfter [ClientExecutionResult.forVote 0 1,
        ClientExecutionResult.againstVote 1 (RError.error "x"),
        ClientExecutionResult.forVote 2 1] 3).votesAgainst.card = 3 := by
  have h := attempt_stats_invariants
    [ClientExecutionResult.forVote 0 1,
     ClientExecutionResult.againstVote 1 (RError.error "x"),
     ClientExecutionResult.forVote 2 1] (by decide)
  constructor
  · simpa using (h.1 0).2
  · simpa using (h.2.2.1 3 (by simp)).mpr (by simp)

end Redlock
